import Mathlib

/-
Verification of the gudgeon filtering DNS proxy core against its
natural-language specification.  The Go source is shallowly embedded:
strings are lists of characters, early-return loops become List.any /
List.findSome?, machine integers become Nat/Int, and external
collaborators (the file system, the bloom filter library, net.ParseIP,
os.Stat) are explicit parameters or abstract state.
-/

namespace Gudgeon

/-- Strings from the Go source are modelled as lists of characters. -/
abbrev Str := List Char

/-- Conversion helper for writing string literals of the embedding. -/
def str (s : String) : Str := s.toList

/-- strings.ToLower (ASCII case folding suffices for the rule texts involved). -/
def lowerStr (s : Str) : Str := s.map Char.toLower

/-- strings.EqualFold: case-insensitive equality. -/
def eqFold (a b : Str) : Bool := lowerStr a == lowerStr b

/-- strings.Split with a one-character separator. -/
def splitChar (c : Char) : Str → List Str
  | [] => [[]]
  | x :: xs =>
    if x = c then [] :: splitChar c xs
    else
      match splitChar c xs with
      | [] => [[x]]
      | y :: ys => (x :: y) :: ys

/-- strings.Join with separator "." over domain labels. -/
def joinDot : List Str → Str
  | [] => []
  | [p] => p
  | p :: rest => p ++ '.' :: joinDot rest

/-- strings.TrimSpace. -/
def trimSpace (s : Str) : Str :=
  ((s.dropWhile Char.isWhitespace).reverse.dropWhile Char.isWhitespace).reverse

/- ===================== rule store (package rule) ===================== -/

/-- rule.Match: result of a rule-store lookup. -/
inductive Match
  | none
  | allow
  | block
deriving DecidableEq

/-- rule.RuleType: the kind a list inherits (ALLOW or BLOCK). -/
inductive RuleType
  | allow
  | block
deriving DecidableEq

/-- config.GudgeonList, reduced to the fields the bloom store reads:
its canonical name (map key) and its type. -/
structure GudgeonList where
  canonicalName : Str
  listType : RuleType
deriving DecidableEq

/-- What the on-disk text file behind a list looks like to isInListFile:
conf.PathToList may be empty (noPath), os.Open may fail (openError), or
the scanner yields a list of lines.  A read error that interrupts the
scan truncates the line list; after the loop both the error and the
no-match exits of isInListFile return false, so no separate flag is
needed. -/
inductive FileAccess
  | noPath
  | openError
  | lines (ls : List Str)

/-- The slice of config.GudgeonConfig that isInListFile consults:
PathToList plus the file system behind it, as a map from a list's
canonical name to what opening that list's file yields. -/
structure RuleConf where
  access : Str → FileAccess

/-- rule.isInListFile: the linear confirm pass over the list's raw file.
An empty path or an open error returns true; otherwise each
non-comment line is stripped of its leading token (everything up to the
first space is dropped and the remainder re-joined without separators,
then trimmed) and compared with strings.EqualFold.  The comment markers
are the rule package's comment constants; their definitions are not in
the provided sources. Modelled from the spec: "# and ; introduce
comments". -/
def isInListFile (text : Str) (conf : RuleConf) (list : GudgeonList) : Bool :=
  match conf.access list.canonicalName with
  | FileAccess.noPath => true
  | FileAccess.openError => true
  | FileAccess.lines ls =>
    ls.any (fun line =>
      if line.head? = some '#' ∨ line.head? = some ';' then false
      else
        let line2 :=
          let sp := splitChar ' ' line
          if sp.length > 1 then trimSpace (sp.drop 1).flatten else line
        eqFold text line2)

/-- Modelled from the spec: util.DomainList is not among the provided
sources.  "produce the domain fan-out DomainList(d) = d plus every
proper suffix obtained by trimming leftmost labels (a.b.c ->
\x7ba.b.c, b.c\x7d)". -/
def DomainList (d : Str) : List Str :=
  let labels := splitChar '.' d
  if labels.length ≤ 1 then [d]
  else (List.range (labels.length - 1)).map (fun i => joinDot (labels.drop i))

/-- rule.bloomStore, with the willf/bloom filters abstracted to their
test functions: bloomFilters maps a list's canonical name to the
filter's TestString.  Load guarantees a filter exists for every list
placed in the group maps; a missing entry is read as a filter that
admits nothing. -/
structure BloomStore where
  conf : Option RuleConf
  groupAllowMap : List (Str × List GudgeonList)
  groupBlockMap : List (Str × List GudgeonList)
  bloomFilters : List (Str × (Str → Bool))

/-- Lookup of store.bloomFilters[list.CanonicalName()]. -/
def filterOf (st : BloomStore) (list : GudgeonList) : Str → Bool :=
  match List.lookup list.canonicalName st.bloomFilters with
  | some f => f
  | Option.none => fun _ => false

/-- One candidate test from bloomStore.IsMatchAny:
filter.TestString(c) && (store.conf == nil || isInListFile(c, store.conf, list)). -/
def candidateHit (st : BloomStore) (list : GudgeonList) (c : Str) : Bool :=
  filterOf st list c &&
    (match st.conf with
     | Option.none => true
     | some conf => isInListFile c conf list)

/-- The early-returning double loop of bloomStore.IsMatchAny over a
family of lists and the domain fan-out, rendered as List.any (the
function only reports the Match value, so the first hit and any hit
coincide). -/
def anyListHit (st : BloomStore) (lists : List GudgeonList) (domains : List Str) : Bool :=
  lists.any (fun l => domains.any (fun c => candidateHit st l c))

/-- The allow lists gathered over the queried groups, in group order,
as bloomStore.IsMatchAny builds allowLists. -/
def allowListsOf (st : BloomStore) (groups : List Str) : List GudgeonList :=
  groups.flatMap (fun g => (List.lookup g st.groupAllowMap).getD [])

/-- The block lists gathered over the queried groups, in group order. -/
def blockListsOf (st : BloomStore) (groups : List Str) : List GudgeonList :=
  groups.flatMap (fun g => (List.lookup g st.groupBlockMap).getD [])

/-- rule.bloomStore.IsMatchAny: fan the domain out, test all allow
lists first, then all block lists, else None. -/
def IsMatchAny (st : BloomStore) (groups : List Str) (domain : Str) : Match :=
  let domains := DomainList domain
  if anyListHit st (allowListsOf st groups) domains then Match.allow
  else if anyListHit st (blockListsOf st groups) domains then Match.block
  else Match.none

/-- The claim-side allow condition, written after the spec's words:
some allow list of some queried group accepts some candidate of the
domain fan-out. -/
def specAllowHit (st : BloomStore) (groups : List Str) (domain : Str) : Prop :=
  ∃ l ∈ allowListsOf st groups, ∃ c ∈ DomainList domain, candidateHit st l c = true

/-- The claim-side block condition. -/
def specBlockHit (st : BloomStore) (groups : List Str) (domain : Str) : Prop :=
  ∃ l ∈ blockListsOf st groups, ∃ c ∈ DomainList domain, candidateHit st l c = true

/- concrete stores used to evaluate the rule-store claims -/

/-- A block list named default/ads. -/
def adsList : GudgeonList := ⟨str "default/ads", RuleType.block⟩

/-- A rule configuration whose every list file fails to open. -/
def openErrConf : RuleConf := ⟨fun _ => FileAccess.openError⟩

/-- Store for the open-error scenario: the bloom filter of default/ads
holds the rule text "ads.example" and the backing file is unreadable. -/
def openErrStore : BloomStore :=
  { conf := some openErrConf
    groupAllowMap := []
    groupBlockMap := [(str "default", [adsList])]
    bloomFilters := [(str "default/ads", fun c => c == str "ads.example")] }

/-- A block list named default/b. -/
def bList : GudgeonList := ⟨str "default/b", RuleType.block⟩

/-- A rule configuration whose list files all read as the single rule
line "foo.example". -/
def fooFileConf : RuleConf := ⟨fun _ => FileAccess.lines [str "foo.example"]⟩

/-- Store for the case-sensitivity scenario: the filter of default/b
reports exactly the lower-cased inserted rule text "foo.example" (an
idealised bloom filter with no false positives) and the list file holds
the same line. -/
def caseStore : BloomStore :=
  { conf := some fooFileConf
    groupAllowMap := []
    groupBlockMap := [(str "default", [bList])]
    bloomFilters := [(str "default/b", fun c => c == str "foo.example")] }

/-- An allow list named default/safe. -/
def safeList : GudgeonList := ⟨str "default/safe", RuleType.allow⟩

/-- Store where both an allow rule (safe.ads.example) and a block rule
(ads.example) match candidates of the same query. -/
def bothStore : BloomStore :=
  { conf := Option.none
    groupAllowMap := [(str "default", [safeList])]
    groupBlockMap := [(str "default", [adsList])]
    bloomFilters :=
      [(str "default/safe", fun c => c == str "safe.ads.example"),
       (str "default/ads", fun c => c == str "ads.example")] }

/- ===================== engine (package engine) ===================== -/

/-- One entry of a consumer's matches.  Client addresses are compared
through net.IP.To16 with bytes.Compare, which orders 16-byte addresses
lexicographically, i.e. numerically on the 128-bit value; addresses are
therefore modelled as natural numbers.  A field is none when the config
string is empty or does not parse (both make the Go check fail).  A
CIDR block under this ordering is the interval from its masked base to
the base with all host bits set, so net is carried as that interval. -/
structure ConsumerMatch where
  mip : Option Nat
  mrange : Option (Nat × Nat)
  mnet : Option (Nat × Nat)
deriving DecidableEq

/-- config.GundgeonConsumer, reduced to the fields consumerGroups reads. -/
structure GudgeonConsumer where
  cname : Str
  groups : List Str
  cmatches : List ConsumerMatch
deriving DecidableEq

/-- config.GudgeonGroup, reduced to its name. -/
structure GudgeonGroup where
  gname : Str
deriving DecidableEq

/-- The slice of config.GudgeonConfig that classification reads. -/
structure GudgeonConfig where
  groups : List GudgeonGroup
  consumers : List GudgeonConsumer
deriving DecidableEq

/-- Which kind of match entry classified the client. -/
inductive MatchKind
  | ip
  | rng
  | cidr
deriving DecidableEq

/-- One iteration of the inner loop of engine.consumerGroups over a
single match entry: the ip test runs first, the range test only when
the ip test did not set foundConsumer, the subnet test only after
both. -/
def entryMatch (cip : Nat) (m : ConsumerMatch) : Option MatchKind :=
  if m.mip = some cip then some MatchKind.ip
  else if (match m.mrange with
           | some se => decide (se.1 ≤ cip ∧ cip ≤ se.2)
           | Option.none => false) then some MatchKind.rng
  else if (match m.mnet with
           | some lh => decide (lh.1 ≤ cip ∧ cip ≤ lh.2)
           | Option.none => false) then some MatchKind.cidr
  else none

/-- The double loop of engine.consumerGroups: consumers in declared
order, entries of each consumer in order, breaking at the first entry
that sets foundConsumer.  The kind of the deciding entry is returned
alongside the consumer. -/
def findConsumer (cip : Nat) : List GudgeonConsumer → Option (GudgeonConsumer × MatchKind)
  | [] => none
  | c :: rest =>
    match c.cmatches.findSome? (entryMatch cip) with
    | some k => some (c, k)
    | Option.none => findConsumer cip rest

/-- engine.New injects a group named default when the configuration
declares none, appending it after the configured groups. -/
def workingGroups (conf : GudgeonConfig) : List GudgeonGroup :=
  conf.groups ++
    (if conf.groups.any (fun g => g.gname == str "default") then [] else [⟨str "default"⟩])

/-- consumer.groupNames as engine.New builds it: walk the working
groups (configuration order, injected default last) and keep those
whose name appears among the consumer's declared groups. -/
def linkedGroupNames (conf : GudgeonConfig) (c : GudgeonConsumer) : List Str :=
  ((workingGroups conf).filter (fun g => c.groups.contains g.gname)).map (fun g => g.gname)

/-- engine.consumerGroups: the matched consumer's groupNames when it
links at least one group, otherwise the literal default list. -/
def consumerGroupsE (conf : GudgeonConfig) (cip : Nat) : List Str :=
  match findConsumer cip conf.consumers with
  | some ck => if linkedGroupNames conf ck.1 = [] then [str "default"] else linkedGroupNames conf ck.1
  | Option.none => [str "default"]

/-- The trailing-dot strip at the top of engine.IsDomainBlocked. -/
def stripTrailingDot (d : Str) : Str :=
  if d.getLast? = some '.' then d.dropLast else d

/-- The engine state that Handle reads.  cache.Query lives in the cache
package, which is not among the provided sources.  Modelled from the
spec: the cache is a per-group map from the question to the stored
response ("Query(group, request) -> (response|nil, found)"); responses
are opaque tokens. -/
structure EngineM where
  conf : GudgeonConfig
  store : BloomStore
  cache : List (Str × List (Str × Nat))

/-- Modelled from the spec: cache.Query as a lookup of the group's
keyspace at the question. -/
def cacheQueryM (cache : List (Str × List (Str × Nat))) (g : Str) (q : Str) : Option Nat :=
  match List.lookup g cache with
  | some entries => List.lookup q entries
  | Option.none => none

/-- engine.IsDomainBlocked: strip the trailing dot, classify the
consumer, ask the store; blocked unless the result is Allow or None. -/
def isDomainBlockedE (e : EngineM) (cip : Nat) (domain : Str) : Bool :=
  let d := stripTrailingDot domain
  let gs := consumerGroupsE e.conf cip
  !(IsMatchAny e.store gs d == Match.allow || IsMatchAny e.store gs d == Match.none)

/-- What engine.Handle does with a request: writes a cached response,
or reaches the empty block branch, or falls off the end with nothing
written. -/
inductive HandleResult
  | cached (resp : Nat)
  | blockedStub
  | unanswered
deriving DecidableEq

/-- engine.Handle: query the cache per group first and write any hit;
only afterwards compute IsDomainBlocked, whose positive branch is an
empty stub, and then fall through without forwarding. -/
def engineHandle (e : EngineM) (cip : Nat) (qname : Str) : HandleResult :=
  let gs := consumerGroupsE e.conf cip
  match gs.findSome? (fun g => cacheQueryM e.cache g qname) with
  | some r => HandleResult.cached r
  | Option.none =>
    if isDomainBlockedE e cip qname then HandleResult.blockedStub
    else HandleResult.unanswered

/- concrete engine and configuration fixtures -/

/-- Configuration with one group (default) and one consumer matching
the client 10 exactly. -/
def confC1 : GudgeonConfig :=
  { groups := [⟨str "default"⟩]
    consumers := [⟨str "c", [str "default"], [⟨some 10, Option.none, Option.none⟩]⟩] }

/-- Store for the engine scenario: "ads.example" is blocked for the
default group (no confirm configured). -/
def engineStore : BloomStore :=
  { conf := Option.none
    groupAllowMap := []
    groupBlockMap := [(str "default", [adsList])]
    bloomFilters := [(str "default/ads", fun c => c == str "ads.example")] }

/-- Engine whose cache already holds a response for the blocked
question "ads.example.". -/
def engineWithCachedBlocked : EngineM :=
  { conf := confC1
    store := engineStore
    cache := [(str "default", [(str "ads.example.", 42)])] }

/-- The same engine with an empty cache. -/
def engineNoCache : EngineM :=
  { conf := confC1
    store := engineStore
    cache := [] }

/-- A consumer whose first match entry is a subnet containing client 10
and whose second entry is the exact ip 10. -/
def cidrBeforeIpConsumer : GudgeonConsumer :=
  ⟨str "c", [str "default"],
   [⟨Option.none, Option.none, some (0, 100)⟩, ⟨some 10, Option.none, Option.none⟩]⟩

/-- A consumer declaring only the users group and matching client 10. -/
def usersConsumer : GudgeonConsumer :=
  ⟨str "e", [str "users"], [⟨some 10, Option.none, Option.none⟩]⟩

/-- Configuration with one group (users) and a consumer declaring only
the users group. -/
def confNoDefault : GudgeonConfig :=
  { groups := [⟨str "users"⟩]
    consumers := [usersConsumer] }

/-- Configuration whose groups are declared in the order b, a while the
consumer declares them as a, b. -/
def confOrder : GudgeonConfig :=
  { groups := [⟨str "b"⟩, ⟨str "a"⟩]
    consumers := [⟨str "e", [str "a", str "b"], [⟨some 10, Option.none, Option.none⟩]⟩] }

/- ============ dns source (package resolver, dnsSource) ============ -/

/-- resolver constants: default ports, worker-pool bounds and buffer
depth, backoff interval (milliseconds). -/
def defaultPort : Nat := 53

/-- Default port under tcp-tls. -/
def defaultTLSPort : Nat := 853

/-- minWorkers. -/
def minWorkers : Int := 0

/-- maxWorkers. -/
def maxWorkers : Int := 25

/-- requestBuffer. -/
def requestBuffer : Nat := 100

/-- backoffInterval, in milliseconds. -/
def backoffMs : Nat := 500

/-- validProtocols. -/
def validProtocols : List Str := [str "udp", str "tcp", str "tcp-tls"]

/-- util.StringIn. -/
def stringIn (s : Str) (l : List Str) : Bool := l.contains s

/-- strconv.ParseUint(s, 10, 32): digits only, non-empty, value within
32 bits. -/
def parseUint32 (s : Str) : Option Nat :=
  if s ≠ [] ∧ s.all Char.isDigit then
    let v := s.foldl (fun acc c => acc * 10 + (c.toNat - 48)) 0
    if v < 2 ^ 32 then some v else none
  else none

/-- The protocol phase of dnsSource.Load: when the specification
contains the protocol delimiter and names a valid protocol after it,
strip it off and remember it lower-cased; otherwise leave the
specification intact with no protocol. -/
def stripProto (spec : Str) : Str × Str :=
  if '/' ∈ spec then
    let split := splitChar '/' spec
    if split.length > 1 ∧ stringIn (lowerStr (split.getD 1 [])) validProtocols then
      (split.getD 0 [], lowerStr (split.getD 1 []))
    else (spec, [])
  else (spec, [])

/-- The host/port phase of dnsSource.Load: split on the port delimiter;
a parse failure leaves the raw port 0 (the sentinel the defaulting
phase replaces). -/
def parseHostPort (spec : Str) : Str × Nat :=
  if ':' ∈ spec then
    let split := splitChar ':' spec
    if split.length > 1 then
      (split.getD 0 [], (parseUint32 (split.getD 1 [])).getD 0)
    else ([], 0)
  else (spec, 0)

/-- The configuration dnsSource.Load computes from a specification. -/
structure DnsSourceConf where
  dnsServer : Str
  port : Nat
  protocol : Str
  network : Str
  insecureSkipVerify : Bool
deriving DecidableEq

/-- dnsSource.Load: strip the protocol, split host and port, default
the protocol to udp, derive the network (tcp for tcp-tls), default a
zero port to 53 or 853, and set up TLS with InsecureSkipVerify. -/
def loadDnsSource (spec : Str) : DnsSourceConf :=
  let p1 := stripProto spec
  let hp := parseHostPort p1.1
  let protocol := if p1.2 = [] then str "udp" else p1.2
  let network := if protocol = str "tcp-tls" then str "tcp" else protocol
  let port := if hp.2 = 0 then (if protocol = str "tcp-tls" then defaultTLSPort else defaultPort) else hp.2
  ⟨hp.1, port, protocol, network, true⟩

/-- dnsSource.connect wraps the tcp connection in tls.Client exactly
when the protocol is tcp-tls. -/
def usesTLSWrap (c : DnsSourceConf) : Bool := c.protocol == str "tcp-tls"

/-- The mutable dnsSource state that Answer reads and writes for the
backoff protocol. -/
structure DnsSourceState where
  backoffTime : Option Nat
deriving DecidableEq

/-- The outcome of source.query, supplied by the environment (the
worker pool and the upstream server): a response or an error. -/
inductive QueryOutcome
  | ok (resp : Nat)
  | fail
deriving DecidableEq

/-- What one dnsSource.Answer call produced: the response, whether an
error was returned, and whether the request was submitted to the
worker pool (increaseWorkers and source.query were reached). -/
structure AnswerOut where
  resp : Option Nat
  isErr : Bool
  submitted : Bool
deriving DecidableEq

/-- The part of dnsSource.Answer past the backoff gate, entered with
the backoff cleared: drop requests that do not ask for recursion
(requestOk is request != nil && request.MsgHdr.RecursionDesired),
submit the rest, and arm a fresh 500 ms backoff on error. -/
def sourceAnswerBody (now : Nat) (requestOk : Bool) (outcome : QueryOutcome) :
    DnsSourceState × AnswerOut :=
  if !requestOk then (⟨none⟩, ⟨none, false, false⟩)
  else
    match outcome with
    | QueryOutcome.ok r => (⟨none⟩, ⟨some r, false, true⟩)
    | QueryOutcome.fail => (⟨some (now + backoffMs)⟩, ⟨none, true, true⟩)

/-- The backoff gate at the top of dnsSource.Answer: inside the window
return (nil, nil) leaving the state untouched, otherwise proceed with
the backoff cleared. -/
def sourceAnswer (st : DnsSourceState) (now : Nat) (requestOk : Bool) (outcome : QueryOutcome) :
    DnsSourceState × AnswerOut :=
  match st.backoffTime with
  | some b =>
    if now < b then (st, ⟨none, false, false⟩)
    else sourceAnswerBody now requestOk outcome
  | Option.none => sourceAnswerBody now requestOk outcome

/-- dnsSource.increaseWorkers: spawn when there are no workers, or when
the worker count has not passed maxWorkers and the buffered channel is
more than half full. -/
def increaseWorkers (workers : Int) (pending : Nat) : Int :=
  if workers ≤ minWorkers ∨ (workers ≤ maxWorkers ∧ pending > requestBuffer / 2) then
    workers + 1
  else workers

/-- dnsSource.decreaseWorkers: retire a worker when the count is above
minWorkers and the channel is less than half full. -/
def decreaseWorkers (workers : Int) (pending : Nat) : Int :=
  if minWorkers < workers ∧ pending < requestBuffer / 2 then workers - 1
  else workers

/-- One pressure-controller action, with the channel occupancy it
observed. -/
inductive PoolOp
  | grow (pending : Nat)
  | shrink (pending : Nat)

/-- Apply one pressure-controller action to the worker count. -/
def applyPoolOp (w : Int) : PoolOp → Int
  | PoolOp.grow p => increaseWorkers w p
  | PoolOp.shrink p => decreaseWorkers w p

/-- The worker count after a sequence of pressure-controller actions,
starting from the empty pool Load creates. -/
def runPool (ops : List PoolOp) : Int := ops.foldl applyPoolOp 0

/- ============ source selection (resolver.NewSource) ============ -/

/-- The collaborators NewSource consults: os.Stat (statExists is true
when the error is not a not-exist error), zone parsing, and
net.ParseIP.  Modelled from the spec where the constructors are not
among the provided sources: newZoneSourceFromFile returns no source
when the zone format yields no records (zoneRecords false), and
newHostFileSource, newDnsSource and newResolverSource always return a
source (the named variant degrades to a no-op resolver rather than
nil). -/
structure SourceEnv where
  statExists : Str → Bool
  zoneRecords : Str → Bool
  isIP : Str → Bool

/-- The variant of source NewSource hands back. -/
inductive SourceKind
  | zonefile
  | hostfile
  | dnssrc
  | namedsrc
deriving DecidableEq

/-- resolver.NewSource: an existing file is a zone-file source, or a
host-file source when zone parsing produced no source; an IP, or
anything with a port or protocol delimiter, is a dns source; the rest
fall back to a named-resolver source. -/
def NewSource (env : SourceEnv) (spec : Str) : SourceKind :=
  if env.statExists spec then
    if env.zoneRecords spec then SourceKind.zonefile else SourceKind.hostfile
  else if env.isIP spec || decide ((':' : Char) ∈ spec) || decide (('/' : Char) ∈ spec) then
    SourceKind.dnssrc
  else SourceKind.namedsrc

/-- Environment in which the specification names an existing zone
file. -/
def envZone : SourceEnv := ⟨fun _ => true, fun _ => true, fun _ => false⟩

/-- Environment in which nothing is a file and everything parses as an
IP. -/
def envIP : SourceEnv := ⟨fun _ => false, fun _ => false, fun _ => true⟩

/-- Environment in which nothing is a file or an IP. -/
def envPlain : SourceEnv := ⟨fun _ => false, fun _ => false, fun _ => false⟩

/- ===================== theorems ===================== -/

/-- Bridge between the Bool-valued loop of IsMatchAny and the
existential reading of a hit. -/
theorem anyListHit_iff (st : BloomStore) (lists : List GudgeonList) (domains : List Str) :
    anyListHit st lists domains = true ↔
      ∃ l ∈ lists, ∃ c ∈ domains, candidateHit st l c = true := by
  simp [anyListHit, List.any_eq_true]

/-- Claim C2: IsMatchAny tests every candidate of the domain fan-out
DomainList(d) against the allow lists of all queried groups first and
returns Allow on any allow hit; only when no allow candidate hits does
it test the block lists, returning Block on a hit and None otherwise;
in particular Allow wins whenever both an allow and a block rule
match. -/
theorem c2_fanout_allow_first (st : BloomStore) (gs : List Str) (d : Str) :
    (IsMatchAny st gs d = Match.allow ↔ specAllowHit st gs d)
  ∧ (IsMatchAny st gs d = Match.block ↔ (¬ specAllowHit st gs d ∧ specBlockHit st gs d))
  ∧ (IsMatchAny st gs d = Match.none ↔ (¬ specAllowHit st gs d ∧ ¬ specBlockHit st gs d))
  ∧ (specAllowHit st gs d → specBlockHit st gs d → IsMatchAny st gs d = Match.allow) := by
  have ha : specAllowHit st gs d ↔ anyListHit st (allowListsOf st gs) (DomainList d) = true := by
    rw [anyListHit_iff]; rfl
  have hb : specBlockHit st gs d ↔ anyListHit st (blockListsOf st gs) (DomainList d) = true := by
    rw [anyListHit_iff]; rfl
  cases hA : anyListHit st (allowListsOf st gs) (DomainList d) <;>
    cases hB : anyListHit st (blockListsOf st gs) (DomainList d) <;>
      simp [IsMatchAny, hA, hB, ha, hb]

/-- Witness for C2 at a store where an allow rule (safe.ads.example)
and a block rule (ads.example) both match candidates of the query
safe.ads.example: Allow wins. -/
theorem c2_fanout_allow_first_w :
    IsMatchAny bothStore [str "default"] (str "safe.ads.example") = Match.allow :=
  (c2_fanout_allow_first bothStore [str "default"] (str "safe.ads.example")).2.2.2
    (by unfold specAllowHit; decide) (by unfold specBlockHit; decide)

/-- Counterexample to claim C4 as stated: with the block list's file
unreadable (os.Open fails), IsMatchAny confirms the bloom hit and
returns Block for ads.example instead of falling back to None. -/
theorem c4_open_error_blocks_cex :
    IsMatchAny openErrStore [str "default"] (str "ads.example") = Match.block ∧
    Match.block ≠ Match.none := by decide

/-- Claim C4 as amended: when the list's path is empty or its file
cannot be opened, the linear confirm pass isInListFile treats the
candidate as present (returns true), so IsMatchAny reports the Allow or
Block indicated by the filter rather than None; only a completed scan
that matched no line (including one truncated by a read error) reports
false. -/
theorem c4_open_error_confirms (text : Str) (conf : RuleConf) (list : GudgeonList)
    (h : conf.access list.canonicalName = FileAccess.openError ∨
         conf.access list.canonicalName = FileAccess.noPath) :
    isInListFile text conf list = true := by
  rcases h with h | h <;> simp [isInListFile, h]

/-- Witness for the amended C4. -/
theorem c4_open_error_confirms_w :
    isInListFile (str "ads.example") openErrConf adsList = true :=
  c4_open_error_confirms (str "ads.example") openErrConf adsList (Or.inl rfl)

/-- Counterexample to claim C5 as stated: with the rule foo.example
inserted lower-cased (the filter reports exactly that text) and the
list file holding the same line, the mixed-case query returns None
while the lower-case query returns Block — IsMatchAny applies no case
normalization on the query side, and the case-sensitive bloom
prefilter runs before the case-insensitive confirm pass. -/
theorem c5_case_sensitivity_cex :
    IsMatchAny caseStore [str "default"] (str "FoO.ExAmple") = Match.none ∧
    IsMatchAny caseStore [str "default"] (str "foo.example") = Match.block := by decide

/-- Claim C5 as amended: case-insensitivity holds only in the linear
confirm pass — isInListFile compares with strings.EqualFold, so texts
with the same lower-casing are interchangeable there — while IsMatchAny
itself passes the raw candidate to the bloom filter first. -/
theorem c5_confirm_pass_case_fold (t1 t2 : Str) (conf : RuleConf) (list : GudgeonList)
    (h : lowerStr t1 = lowerStr t2) :
    isInListFile t1 conf list = isInListFile t2 conf list := by
  unfold isInListFile
  cases conf.access list.canonicalName with
  | noPath => rfl
  | openError => rfl
  | lines ls => simp only [eqFold, h]

/-- Witness for the amended C5. -/
theorem c5_confirm_pass_case_fold_w :
    isInListFile (str "FoO.ExAmple") fooFileConf bList =
      isInListFile (str "foo.EXAMPLE") fooFileConf bList :=
  c5_confirm_pass_case_fold (str "FoO.ExAmple") (str "foo.EXAMPLE") fooFileConf bList (by decide)

/-- Claim C1 (code bug evidence): engine.Handle consults the cache
before the rule check, and its block branch is an empty stub.  For the
client 10 and the question ads.example., the store blocks the domain,
yet the engine with a cached entry serves that cached response; with an
empty cache the positive IsDomainBlocked branch produces no synthetic
blocked response at all. -/
theorem c1_blocked_served_from_cache :
    isDomainBlockedE engineWithCachedBlocked 10 (str "ads.example.") = true ∧
    engineHandle engineWithCachedBlocked 10 (str "ads.example.") = HandleResult.cached 42 ∧
    engineHandle engineNoCache 10 (str "ads.example.") = HandleResult.blockedStub := by decide

/-- Counterexample to claim C3 as stated: a consumer whose first match
entry is a subnet containing client 10 and whose second entry is the
exact ip 10 is classified through the subnet entry — declaration order
of the entries decides, not the exact ip > range > cidr specificity. -/
theorem c3_entry_order_beats_specificity_cex :
    findConsumer 10 [cidrBeforeIpConsumer] = some (cidrBeforeIpConsumer, MatchKind.cidr) ∧
    entryMatch 10 (cidrBeforeIpConsumer.cmatches.getD 1 ⟨Option.none, Option.none, Option.none⟩) =
      some MatchKind.ip ∧
    MatchKind.cidr ≠ MatchKind.ip := by decide

/-- Claim C3 as amended: classification walks consumers in declared
order and, within a consumer, match entries in declared order, the
first matching entry deciding; the ip > range > cidr precedence applies
only among the kinds of a single entry (the ip test runs first, the
range test only when the ip test failed, the subnet test last). -/
theorem c3_first_match_entry_order :
    (∀ (cip : Nat) (cs : List GudgeonConsumer),
        findConsumer cip cs =
          cs.findSome? (fun c => (c.cmatches.findSome? (entryMatch cip)).map (fun k => (c, k))))
  ∧ (∀ (cip : Nat) (m : ConsumerMatch), m.mip = some cip → entryMatch cip m = some MatchKind.ip) := by
  constructor
  · intro cip cs
    induction cs with
    | nil => rfl
    | cons c rest ih =>
      cases h : c.cmatches.findSome? (entryMatch cip) with
      | none =>
        simp only [findConsumer, List.findSome?_cons, h, Option.map_none']
        exact ih
      | some k =>
        simp only [findConsumer, List.findSome?_cons, h, Option.map_some']
  · intro cip m h
    simp [entryMatch, h]

/-- Witness for the amended C3. -/
theorem c3_first_match_entry_order_w :
    findConsumer 10 [cidrBeforeIpConsumer] =
      [cidrBeforeIpConsumer].findSome?
        (fun c => (c.cmatches.findSome? (entryMatch 10)).map (fun k => (c, k))) ∧
    entryMatch 10 ⟨some 10, Option.none, some (0, 5)⟩ = some MatchKind.ip :=
  ⟨c3_first_match_entry_order.1 10 [cidrBeforeIpConsumer],
   c3_first_match_entry_order.2 10 ⟨some 10, Option.none, some (0, 5)⟩ rfl⟩

/-- Counterexample to claim C6 as stated: the consumer declaring only
the users group yields the group list [users] — no default group is
appended — and the consumer declaring groups a, b under a configuration
declaring them as b, a yields [b, a], the configuration's order rather
than the consumer's declared order. -/
theorem c6_default_not_appended_cex :
    consumerGroupsE confNoDefault 10 = [str "users"] ∧
    ¬ (str "default") ∈ consumerGroupsE confNoDefault 10 ∧
    consumerGroupsE confOrder 10 = [str "b", str "a"] := by decide

/-- Claim C6 as amended: the derived group list for a matched consumer
is the consumer's declared groups filtered and ordered by the
configuration's group list (with the injected default group at its
end), so a group name — default included — appears only when the
consumer declares it; the literal [default] list is used only when the
consumer links no group at all (or no consumer matches). -/
theorem c6_linked_groups_config_order (conf : GudgeonConfig) (cip : Nat)
    (c : GudgeonConsumer) (k : MatchKind)
    (h : findConsumer cip conf.consumers = some (c, k)) :
    consumerGroupsE conf cip =
      (if linkedGroupNames conf c = [] then [str "default"] else linkedGroupNames conf c)
  ∧ (∀ n ∈ linkedGroupNames conf c, c.groups.contains n = true)
  ∧ (linkedGroupNames conf c).Sublist ((workingGroups conf).map (fun g => g.gname)) := by
  refine ⟨?_, ?_, ?_⟩
  · simp [consumerGroupsE, h]
  · intro n hn
    rcases List.mem_map.mp hn with ⟨g, hg, rfl⟩
    exact (List.mem_filter.mp hg).2
  · exact List.Sublist.map _ (List.filter_sublist _)

/-- Witness for the amended C6. -/
theorem c6_linked_groups_config_order_w :
    consumerGroupsE confNoDefault 10 =
      (if linkedGroupNames confNoDefault usersConsumer = [] then [str "default"]
       else linkedGroupNames confNoDefault usersConsumer)
  ∧ (∀ n ∈ linkedGroupNames confNoDefault usersConsumer,
       usersConsumer.groups.contains n = true)
  ∧ (linkedGroupNames confNoDefault usersConsumer).Sublist
      ((workingGroups confNoDefault).map (fun g => g.gname)) :=
  c6_linked_groups_config_order confNoDefault 10 usersConsumer MatchKind.ip (by decide)

/-- Claim C7: an error at time t arms a 500 ms backoff; every Answer
call strictly inside the window returns (nil, nil) with the request
never submitted to the worker pool (so no connection is opened) and
the state untouched; once the window has elapsed the backoff is
cleared — the call submits the request again, re-arming the backoff
only if that call errors in turn. -/
theorem c7_backoff_behavior (t n1 n2 : Nat) (rOk : Bool) (oc : QueryOutcome) :
    sourceAnswer ⟨Option.none⟩ t true QueryOutcome.fail =
      (⟨some (t + backoffMs)⟩, ⟨Option.none, true, true⟩)
  ∧ (n1 < t + backoffMs →
      sourceAnswer ⟨some (t + backoffMs)⟩ n1 rOk oc =
        (⟨some (t + backoffMs)⟩, ⟨Option.none, false, false⟩))
  ∧ (t + backoffMs ≤ n2 →
      (sourceAnswer ⟨some (t + backoffMs)⟩ n2 true oc).2.submitted = true
      ∧ (sourceAnswer ⟨some (t + backoffMs)⟩ n2 true oc).1.backoffTime =
          (match oc with
           | QueryOutcome.fail => some (n2 + backoffMs)
           | QueryOutcome.ok _ => Option.none)) := by
  refine ⟨rfl, ?_, ?_⟩
  · intro h
    simp [sourceAnswer, h]
  · intro h
    have hn : ¬ n2 < t + backoffMs := not_lt.mpr h
    cases oc <;> simp [sourceAnswer, sourceAnswerBody, hn]

/-- Witness for C7: an error at t = 0, a refused call at 100 ms, a
forwarded call at 600 ms. -/
theorem c7_backoff_behavior_w :
    sourceAnswer ⟨Option.none⟩ 0 true QueryOutcome.fail =
      (⟨some (0 + backoffMs)⟩, ⟨Option.none, true, true⟩)
  ∧ sourceAnswer ⟨some (0 + backoffMs)⟩ 100 true (QueryOutcome.ok 7) =
      (⟨some (0 + backoffMs)⟩, ⟨Option.none, false, false⟩)
  ∧ (sourceAnswer ⟨some (0 + backoffMs)⟩ 600 true (QueryOutcome.ok 7)).2.submitted = true :=
  ⟨(c7_backoff_behavior 0 100 600 true (QueryOutcome.ok 7)).1,
   (c7_backoff_behavior 0 100 600 true (QueryOutcome.ok 7)).2.1 (by decide),
   ((c7_backoff_behavior 0 100 600 true (QueryOutcome.ok 7)).2.2 (by decide)).1⟩

set_option maxRecDepth 20000 in
/-- Counterexample to claim C8 as stated: increaseWorkers grows the
pool whenever workers <= maxWorkers (not strictly below it), so 26
grow actions under a more-than-half-full buffer (51 pending of 100)
drive the count from 0 to 26, above maxWorkers = 25. -/
theorem c8_workers_exceed_max_cex :
    runPool (List.replicate 26 (PoolOp.grow 51)) = maxWorkers + 1 ∧
    ¬ runPool (List.replicate 26 (PoolOp.grow 51)) ≤ maxWorkers := by decide

/-- One pressure-controller action keeps the worker count within
[0, maxWorkers + 1]. -/
theorem applyPoolOp_bounds (w : Int) (op : PoolOp) (h0 : 0 ≤ w) (h1 : w ≤ maxWorkers + 1) :
    0 ≤ applyPoolOp w op ∧ applyPoolOp w op ≤ maxWorkers + 1 := by
  cases op with
  | grow p =>
    simp only [applyPoolOp, increaseWorkers, minWorkers, maxWorkers, requestBuffer] at *
    split <;> omega
  | shrink p =>
    simp only [applyPoolOp, decreaseWorkers, minWorkers, maxWorkers, requestBuffer] at *
    split <;> omega

/-- Folding any action sequence from a start within [0, maxWorkers + 1]
stays within it. -/
theorem foldPool_bounds (ops : List PoolOp) :
    ∀ w : Int, 0 ≤ w → w ≤ maxWorkers + 1 →
      0 ≤ ops.foldl applyPoolOp w ∧ ops.foldl applyPoolOp w ≤ maxWorkers + 1 := by
  induction ops with
  | nil => intro w h0 h1; exact ⟨h0, h1⟩
  | cons op rest ih =>
    intro w h0 h1
    have hs := applyPoolOp_bounds w op h0 h1
    simpa [List.foldl_cons] using ih (applyPoolOp w op) hs.1 hs.2

/-- Claim C8 as amended: the worker count stays within the bounds
minWorkers = 0 and maxWorkers + 1 = 26.  increaseWorkers spawns when
workers <= 0 or when workers <= maxWorkers with the pending buffer more
than half full — so a 26th worker is reachable but a 27th is not — and
decreaseWorkers only retires a worker when the count is positive, so no
action sequence drives the count above 26 or below 0. -/
theorem c8_worker_bounds (ops : List PoolOp) :
    0 ≤ runPool ops ∧ runPool ops ≤ maxWorkers + 1 :=
  foldPool_bounds ops 0 le_rfl (by decide)

/-- The protocol phase either finds no valid protocol or yields one
from validProtocols. -/
theorem stripProto_snd (s : Str) :
    (stripProto s).2 = [] ∨ stringIn (stripProto s).2 validProtocols = true := by
  simp only [stripProto]
  split_ifs with h1 h2
  · exact Or.inr h2.2
  · exact Or.inl rfl
  · exact Or.inl rfl

/-- Members of validProtocols are non-empty strings. -/
theorem validProtocol_ne_nil (p : Str) (h : stringIn p validProtocols = true) : p ≠ [] := by
  intro e
  subst e
  exact absurd h (by decide)

/-- The loaded protocol is always one of udp, tcp, tcp-tls. -/
theorem loadDnsSource_protocol_valid (s : Str) :
    stringIn (loadDnsSource s).protocol validProtocols = true := by
  rcases stripProto_snd s with h | h
  · have hp : (loadDnsSource s).protocol = str "udp" := by simp [loadDnsSource, h]
    rw [hp]
    decide
  · have hne := validProtocol_ne_nil _ h
    have hp : (loadDnsSource s).protocol = (stripProto s).2 := by simp [loadDnsSource, hne]
    rw [hp]
    exact h

/-- Splitting at the single separator between two separator-free parts. -/
theorem splitChar_append (c : Char) (a b : Str) (h : c ∉ a) :
    splitChar c (a ++ c :: b) = a :: splitChar c b := by
  induction a with
  | nil => simp [splitChar]
  | cons x xs ih =>
    have hx : ¬ x = c := fun e => h (by simp [e])
    have hxs : c ∉ xs := fun m => h (List.mem_cons_of_mem _ m)
    simp [splitChar, hx, ih hxs]

/-- The protocol phase on host/proto with a valid protocol strips the
suffix and lower-cases the protocol. -/
theorem stripProto_of_valid (host p : Str)
    (hsplit : splitChar '/' (host ++ '/' :: p) = [host, p])
    (hvalid : stringIn (lowerStr p) validProtocols = true) :
    stripProto (host ++ '/' :: p) = (host, lowerStr p) := by
  have hmem : ('/' : Char) ∈ host ++ '/' :: p :=
    List.mem_append_right _ (List.mem_cons_self _ _)
  simp only [stripProto, hsplit, if_pos hmem]
  have hcond : ([host, p] : List Str).length > 1 ∧
      stringIn (lowerStr (([host, p] : List Str).getD 1 [])) validProtocols := by
    exact ⟨by simp, by simpa using hvalid⟩
  rw [if_pos hcond]
  rfl

/-- Load accepts each of the three valid protocols appended to any
slash-free host. -/
theorem loadDnsSource_accepts (host p : Str) (hh : ('/' : Char) ∉ host)
    (hp : p ∈ validProtocols) :
    (loadDnsSource (host ++ '/' :: p)).protocol = p := by
  have hp3 : p = str "udp" ∨ p = str "tcp" ∨ p = str "tcp-tls" := by
    simpa [validProtocols] using hp
  have hpl : lowerStr p = p := by
    rcases hp3 with h | h | h <;> subst h <;> decide
  have hsp : splitChar '/' p = [p] := by
    rcases hp3 with h | h | h <;> subst h <;> decide
  have hsplit : splitChar '/' (host ++ '/' :: p) = [host, p] := by
    rw [splitChar_append '/' host p hh, hsp]
  have hvalid : stringIn (lowerStr p) validProtocols = true := by
    rw [hpl]
    simpa [stringIn] using hp
  have hstrip := stripProto_of_valid host p hsplit hvalid
  have hne : p ≠ [] := by
    rcases hp3 with h | h | h <;> subst h <;> decide
  simp [loadDnsSource, hstrip, hpl, hne]

/-- Claim C9: dnsSource.Load parses host[:port][/proto] accepting
proto in \x7budp, tcp, tcp-tls\x7d (any slash-free host followed by a
valid /proto yields that protocol, and the loaded protocol is always
one of the three); an absent protocol defaults to udp; an absent or
unparsable port (raw port 0 after the host/port phase) defaults to 53,
or 853 under tcp-tls; tcp-tls yields the tcp network wrapped in TLS;
and the TLS configuration sets InsecureSkipVerify. -/
theorem c9_load_spec_parsing (s host p : Str) :
    (loadDnsSource s).insecureSkipVerify = true
  ∧ stringIn (loadDnsSource s).protocol validProtocols = true
  ∧ (loadDnsSource s).network =
      (if (loadDnsSource s).protocol = str "tcp-tls" then str "tcp" else (loadDnsSource s).protocol)
  ∧ (usesTLSWrap (loadDnsSource s) = true ↔ (loadDnsSource s).protocol = str "tcp-tls")
  ∧ (('/' : Char) ∉ s → (loadDnsSource s).protocol = str "udp")
  ∧ ((parseHostPort (stripProto s).1).2 = 0 →
       (loadDnsSource s).port =
         (if (loadDnsSource s).protocol = str "tcp-tls" then defaultTLSPort else defaultPort))
  ∧ (('/' : Char) ∉ s → (':' : Char) ∉ s →
       (loadDnsSource s).dnsServer = s ∧ (loadDnsSource s).port = defaultPort)
  ∧ (('/' : Char) ∉ host → p ∈ validProtocols →
       (loadDnsSource (host ++ '/' :: p)).protocol = p) := by
  refine ⟨by simp [loadDnsSource], loadDnsSource_protocol_valid s, by simp [loadDnsSource],
    ?_, ?_, ?_, ?_, ?_⟩
  · simp [usesTLSWrap, beq_iff_eq]
  · intro h
    have hstrip : stripProto s = (s, []) := by simp [stripProto, h]
    simp [loadDnsSource, hstrip]
  · intro h
    simp [loadDnsSource, h]
  · intro h1 h2
    have hstrip : stripProto s = (s, []) := by simp [stripProto, h1]
    have hhp : parseHostPort s = (s, 0) := by simp [parseHostPort, h2]
    refine ⟨by simp [loadDnsSource, hstrip, hhp], ?_⟩
    simp [loadDnsSource, hstrip, hhp]
    decide
  · intro hh hp
    exact loadDnsSource_accepts host p hh hp

/-- Witness for C9: 8.8.8.8 loads as udp:53 with itself as the server,
its raw port is the 0 sentinel so the default applies, and
1.1.1.1/tcp-tls loads with protocol tcp-tls. -/
theorem c9_load_spec_parsing_w :
    (loadDnsSource (str "8.8.8.8")).protocol = str "udp"
  ∧ ((loadDnsSource (str "8.8.8.8")).dnsServer = str "8.8.8.8"
      ∧ (loadDnsSource (str "8.8.8.8")).port = defaultPort)
  ∧ (loadDnsSource (str "8.8.8.8")).port =
      (if (loadDnsSource (str "8.8.8.8")).protocol = str "tcp-tls" then defaultTLSPort
       else defaultPort)
  ∧ (loadDnsSource (str "1.1.1.1" ++ '/' :: str "tcp-tls")).protocol = str "tcp-tls" :=
  have h := c9_load_spec_parsing (str "8.8.8.8") (str "1.1.1.1") (str "tcp-tls")
  ⟨h.2.2.2.2.1 (by decide),
   h.2.2.2.2.2.2.1 (by decide) (by decide),
   h.2.2.2.2.2.1 (by decide),
   h.2.2.2.2.2.2.2 (by decide) (by decide)⟩

/-- Claim C10: NewSource is total over specification strings and hands
back a source in every case — a zone-file source for an existing file
with zone records, a host-file source when zone parsing yields no
source, a dns source when the specification is an IP or carries a port
or protocol delimiter, and the named-resolver fallback otherwise. -/
theorem c10_new_source_total (env : SourceEnv) (s : Str) :
    (env.statExists s = true →
       NewSource env s = (if env.zoneRecords s then SourceKind.zonefile else SourceKind.hostfile))
  ∧ (env.statExists s = false →
       (env.isIP s || decide ((':' : Char) ∈ s) || decide (('/' : Char) ∈ s)) = true →
       NewSource env s = SourceKind.dnssrc)
  ∧ (env.statExists s = false →
       (env.isIP s || decide ((':' : Char) ∈ s) || decide (('/' : Char) ∈ s)) = false →
       NewSource env s = SourceKind.namedsrc) := by
  refine ⟨?_, ?_, ?_⟩
  · intro h
    simp [NewSource, h]
  · intro h h2
    simp [NewSource, h, h2]
  · intro h h2
    simp [NewSource, h, h2]

/-- Witness for C10: each branch at a concrete environment and
specification. -/
theorem c10_new_source_total_w :
    NewSource envZone (str "zones.db") = SourceKind.zonefile
  ∧ NewSource envIP (str "8.8.8.8") = SourceKind.dnssrc
  ∧ NewSource envPlain (str "google") = SourceKind.namedsrc :=
  ⟨((c10_new_source_total envZone (str "zones.db")).1 rfl).trans (by decide),
   (c10_new_source_total envIP (str "8.8.8.8")).2.1 rfl (by decide),
   (c10_new_source_total envPlain (str "google")).2.2 rfl (by decide)⟩

end Gudgeon
